import Mathlib

/-!
Verification development for `intern/opensubdiv/internal/evaluator/evaluator_impl.cc`
(Blender's OpenSubdiv limit-evaluation wrapper).

The development shallowly embeds the evaluator implementation: buffer
descriptors, the stencil refinement step, the volatile evaluator objects
(position and face-varying channels), the external C API entry points, and
the stack-or-heap staging array.  Functions of the OpenSubdiv library itself
(stencil kernels, patch-evaluation kernels, the patch map) are not part of
the repository; they are modelled from the specification where needed, and
each such definition is marked `Modelled from the spec`.

Floating point values are modelled as rationals; buffers are total functions
from flat float indices to values.
-/

namespace Subdiv

/-- Mirrors `OpenSubdiv::Osd::BufferDescriptor`: offset, element width and
stride (in floats) of one stream inside a larger buffer. -/
structure BufferDescriptor where
  offset : Nat
  width : Nat
  stride : Nat
deriving DecidableEq

/-- One stencil: the ordered list of (source element index, weight) pairs that
produce one refined element.  Mirrors one row of `Far::StencilTable`. -/
structure Stencil where
  pairs : List (Nat × ℚ)
deriving DecidableEq

/-- Mirrors `Far::StencilTable`: number of coarse control vertices
(`GetNumControlVertices`) and the list of stencils (`GetNumStencils` is its
length). -/
structure StencilTable where
  numControlVertices : Nat
  stencils : List Stencil
deriving DecidableEq

/-- The weighted combination one stencil computes for component `c`, reading
the buffer through the source descriptor view:
`sum over (index, weight) of weight * buf[src.offset + index * src.stride + c]`. -/
def stencilValue (srcD : BufferDescriptor) (buf : Nat → ℚ) (st : Stencil) (c : Nat) : ℚ :=
  (st.pairs.map (fun p => p.2 * buf (srcD.offset + p.1 * srcD.stride + c))).sum

/-- Writing the output of stencil number `i` into the buffer through the
destination descriptor view: components `c < dstD.width` of destination
element `i` are overwritten, everything else is left alone. -/
def writeOne (srcD dstD : BufferDescriptor) (i : Nat) (st : Stencil) (buf : Nat → ℚ) :
    Nat → ℚ :=
  fun k =>
    if dstD.offset + i * dstD.stride ≤ k ∧ k < dstD.offset + i * dstD.stride + dstD.width then
      stencilValue srcD buf st (k - (dstD.offset + i * dstD.stride))
    else buf k

/-- Sequential in-place evaluation of a list of stencils starting at stencil
index `i`: stencil `i` is applied to the current buffer, then the rest. -/
def runStencils (srcD dstD : BufferDescriptor) : Nat → List Stencil → (Nat → ℚ) → Nat → ℚ
  | _, [], buf => buf
  | i, st :: rest, buf => runStencils srcD dstD (i + 1) rest (writeOne srcD dstD i st buf)

/-- Modelled from the spec: `EVALUATOR::EvalStencils` (an OpenSubdiv Osd kernel,
not part of this repository).  Section 4.1 of the spec: for every stencil `i`,
`dest[i] = sum_j weight_j * buffer[index_j]`, reading from the source layout's
view and writing through the destination layout's view of the same buffer, in
stencil order (the repository always passes the same buffer as source and
destination). -/
def EvalStencils (buf : Nat → ℚ) (srcD dstD : BufferDescriptor) (table : StencilTable) :
    Nat → ℚ :=
  runStencils srcD dstD 0 table.stencils buf

/-- Executable check of the stencil-table invariant stated by the spec's data
model: starting from stencil index bound `b`, every stencil references only
element indices strictly below its own element index. -/
def belowOwnB : Nat → List Stencil → Bool
  | _, [] => true
  | b, st :: rest => (st.pairs.all (fun p => decide (p.1 < b))) && belowOwnB (b + 1) rest

/-- Mirrors the patch table objects (`CpuPatchTable` / `GLPatchTable`): the one
piece of state the evaluator code reads from them is the adaptivity flag of the
descriptor of patch array 0. -/
structure PatchTable where
  patch_array0_adaptive : Bool
deriving DecidableEq

/-- Mirrors the `is_adaptive` discriminators of `evaluator_impl.cc`: reads the
descriptor of patch array 0 and returns its `IsAdaptive()` flag. -/
def is_adaptive (patch_table : PatchTable) : Bool :=
  patch_table.patch_array0_adaptive

/-- Mirrors `Osd::CpuVertexBuffer` (resp. `GLVertexBuffer`): a flat float
buffer with an element width.  `data` is the flat float view
(`BindCpuBuffer`). -/
structure CpuVertexBuffer where
  width : Nat
  num_vertices : Nat
  data : Nat → ℚ

/-- Mirrors `CpuVertexBuffer::Create(width, num_vertices)`: fresh buffer; the
initial contents are unspecified and modelled as zeros. -/
def CpuVertexBuffer.Create (width num_vertices : Nat) : CpuVertexBuffer :=
  { width := width, num_vertices := num_vertices, data := fun _ => 0 }

/-- Mirrors `CpuVertexBuffer::UpdateData(src, start_vertex, num_vertices)`:
copies `num_vertices * width` floats from `src` into the buffer starting at
flat position `start_vertex * width`. -/
def CpuVertexBuffer.UpdateData (b : CpuVertexBuffer) (src : List ℚ)
    (start_vertex num_vertices : Nat) : CpuVertexBuffer :=
  { b with data := fun k =>
      if start_vertex * b.width ≤ k ∧ k < (start_vertex + num_vertices) * b.width then
        src.getD (k - start_vertex * b.width) 0
      else b.data k }

/-- Mirrors `Far::PatchTable::PatchHandle` (array index, patch index, vertex
index). -/
structure PatchHandle where
  arrayIndex : Nat
  patchIndex : Nat
  vertIndex : Nat
deriving DecidableEq

instance : Inhabited PatchHandle := ⟨⟨0, 0, 0⟩⟩

/-- Mirrors `Osd::PatchCoord`: a resolved patch handle plus parametric
coordinates. -/
structure PatchCoord where
  handle : PatchHandle
  u : ℚ
  v : ℚ
deriving DecidableEq

instance : Inhabited PatchCoord := ⟨⟨⟨0, 0, 0⟩, 0, 0⟩⟩

/-- Mirrors `OpenSubdiv_PatchCoord` of the C API: an unresolved coordinate,
a ptex face index plus parametric coordinates. -/
structure OpenSubdiv_PatchCoord where
  ptex_face : Nat
  u : ℚ
  v : ℚ
deriving DecidableEq

instance : Inhabited OpenSubdiv_PatchCoord := ⟨⟨0, 0, 0⟩⟩

/-- Modelled from the spec: the per-point patch-evaluation kernels of the
backend `EVALUATOR` type (`CpuEvaluator` / `GLComputeEvaluator`, OpenSubdiv
code outside this repository).  Section 4.3 of the spec: patch evaluation
processes each coordinate independently, evaluating the patch basis against
the control points read from the source buffer through the source descriptor
view; each kernel is a deterministic function of that data.  Components are
the position, the two partial derivatives, the varying value, and the
face-varying value (which additionally receives the channel index). -/
structure Evaluator where
  evalPoint : (Nat → ℚ) → BufferDescriptor → PatchTable → PatchCoord → Nat → ℚ
  evalPointDu : (Nat → ℚ) → BufferDescriptor → PatchTable → PatchCoord → Nat → ℚ
  evalPointDv : (Nat → ℚ) → BufferDescriptor → PatchTable → PatchCoord → Nat → ℚ
  evalVaryingPoint : (Nat → ℚ) → BufferDescriptor → PatchTable → PatchCoord → Nat → ℚ
  evalFaceVaryingPoint :
    (Nat → ℚ) → BufferDescriptor → PatchTable → Nat → PatchCoord → Nat → ℚ

/-- Modelled from the spec: the batched output side of
`EVALUATOR::EvalPatches...` kernels.  For each coordinate `i` in the batch the
per-point value `f` is written densely into the output array at
`[width * i, width * i + width)`; other output positions are untouched. -/
def EvalPatchesKernel (f : PatchCoord → Nat → ℚ) (width : Nat)
    (patch_coords : List PatchCoord) (out : Nat → ℚ) : Nat → ℚ :=
  fun k =>
    if k < width * patch_coords.length then
      f (patch_coords.getD (k / width) default) (k % width)
    else out k

/-- Mirrors the class `FaceVaryingVolatileEval`: one face-varying channel's
refinement and evaluation state. -/
structure FaceVaryingVolatileEval where
  face_varying_channel : Nat
  src_face_varying_desc : BufferDescriptor
  num_coarse_face_varying_vertices : Nat
  src_face_varying_data : CpuVertexBuffer
  face_varying_stencils : StencilTable
  patch_table : PatchTable

instance : Inhabited FaceVaryingVolatileEval :=
  ⟨⟨0, ⟨0, 0, 0⟩, 0, CpuVertexBuffer.Create 2 0, ⟨0, []⟩, ⟨false⟩⟩⟩

/-- Mirrors the constructor of `FaceVaryingVolatileEval`: the source
descriptor is `(0, width, width)`, the coarse count comes from the stencil
table, and the buffer holds the coarse prefix plus one element per stencil
(created with literal width 2, as in the source). -/
def FaceVaryingVolatileEval.create (face_varying_channel : Nat)
    (face_varying_stencils : StencilTable) (face_varying_width : Nat)
    (patch_table : PatchTable) : FaceVaryingVolatileEval :=
  { face_varying_channel := face_varying_channel
    src_face_varying_desc := ⟨0, face_varying_width, face_varying_width⟩
    num_coarse_face_varying_vertices := face_varying_stencils.numControlVertices
    src_face_varying_data := CpuVertexBuffer.Create 2
      (face_varying_stencils.numControlVertices + face_varying_stencils.stencils.length)
    face_varying_stencils := face_varying_stencils
    patch_table := patch_table }

/-- Mirrors `FaceVaryingVolatileEval::updateData`. -/
def FaceVaryingVolatileEval.updateData (e : FaceVaryingVolatileEval) (src : List ℚ)
    (start_vertex num_vertices : Nat) : FaceVaryingVolatileEval :=
  { e with src_face_varying_data :=
      e.src_face_varying_data.UpdateData src start_vertex num_vertices }

/-- The destination descriptor built at the top of
`FaceVaryingVolatileEval::refine`: the source descriptor with the offset
advanced by `num_coarse_face_varying_vertices_ * stride`. -/
def FaceVaryingVolatileEval.refine_dst_desc (e : FaceVaryingVolatileEval) :
    BufferDescriptor :=
  { e.src_face_varying_desc with
    offset := e.src_face_varying_desc.offset +
      e.num_coarse_face_varying_vertices * e.src_face_varying_desc.stride }

/-- Mirrors `FaceVaryingVolatileEval::refine`: evaluates the channel's
stencils in place on the channel's own buffer, source and destination being
the same buffer with the destination offset past the coarse vertices. -/
def FaceVaryingVolatileEval.refine (e : FaceVaryingVolatileEval) :
    FaceVaryingVolatileEval :=
  { e with src_face_varying_data :=
      { e.src_face_varying_data with
        data := EvalStencils e.src_face_varying_data.data e.src_face_varying_desc
          e.refine_dst_desc e.face_varying_stencils } }

/-- Mirrors `FaceVaryingVolatileEval::get_src_varying_desc`: in non-adaptive
(uniform) mode the returned descriptor's offset skips the coarse vertices; in
adaptive mode the source descriptor is returned unchanged.  The mode is read
from the shared patch table. -/
def FaceVaryingVolatileEval.get_src_varying_desc (e : FaceVaryingVolatileEval) :
    BufferDescriptor :=
  if !(is_adaptive e.patch_table) then
    { e.src_face_varying_desc with
      offset := e.src_face_varying_desc.offset +
        e.num_coarse_face_varying_vertices * e.src_face_varying_desc.stride }
  else e.src_face_varying_desc

/-- Mirrors `FaceVaryingVolatileEval::evalPatches`: evaluates the channel's
patches through the backend kernel with the channel's source buffer viewed
through `get_src_varying_desc`, writing 2-wide values densely into
`face_varying`. -/
def FaceVaryingVolatileEval.evalPatches (e : FaceVaryingVolatileEval)
    (backend : Evaluator) (patch_coord : List PatchCoord) (face_varying : Nat → ℚ) :
    Nat → ℚ :=
  EvalPatchesKernel
    (fun pc c => backend.evalFaceVaryingPoint e.src_face_varying_data.data
      e.get_src_varying_desc e.patch_table e.face_varying_channel pc c)
    2 patch_coord face_varying

/-- In-place update of list entry `ch` (mirrors indexing
`face_varying_evaluators[channel]` followed by a mutating call); out-of-range
channels leave the list unchanged (the source asserts the range). -/
def modifyChannel : List FaceVaryingVolatileEval → Nat →
    (FaceVaryingVolatileEval → FaceVaryingVolatileEval) → List FaceVaryingVolatileEval
  | [], _, _ => []
  | x :: xs, 0, f => f x :: xs
  | x :: xs, ch + 1, f => x :: modifyChannel xs ch f

/-- Mirrors the class `VolatileEvalOutput`: the position and varying buffers
and stencils, the patch table, the face-varying channel evaluators, and the
backend (the `EVALUATOR` template parameter). -/
structure VolatileEvalOutput where
  src_data : CpuVertexBuffer
  src_varying_data : CpuVertexBuffer
  patch_table : PatchTable
  src_desc : BufferDescriptor
  src_varying_desc : BufferDescriptor
  num_coarse_vertices : Nat
  vertex_stencils : StencilTable
  varying_stencils : StencilTable
  face_varying_width : Nat
  face_varying_evaluators : List FaceVaryingVolatileEval
  backend : Evaluator

/-- Helper for the constructor loop of `VolatileEvalOutput`: creates one
face-varying evaluator per stencil table, with consecutive channel indices,
all sharing the one patch table. -/
def mkFaceVaryingEvaluators : Nat → List StencilTable → Nat → PatchTable →
    List FaceVaryingVolatileEval
  | _, [], _, _ => []
  | ch, st :: rest, w, pt =>
    FaceVaryingVolatileEval.create ch st w pt :: mkFaceVaryingEvaluators (ch + 1) rest w pt

/-- Mirrors the constructor of `VolatileEvalOutput`: position and varying
descriptors are `(0, 3, 3)`, the coarse count comes from the vertex stencil
table, both buffers hold coarse plus refined plus local points, and one
face-varying evaluator is created per channel. -/
def VolatileEvalOutput.create (vertex_stencils varying_stencils : StencilTable)
    (all_face_varying_stencils : List StencilTable) (face_varying_width : Nat)
    (patch_table : PatchTable) (backend : Evaluator) : VolatileEvalOutput :=
  { src_data := CpuVertexBuffer.Create 3
      (vertex_stencils.numControlVertices + vertex_stencils.stencils.length)
    src_varying_data := CpuVertexBuffer.Create 3
      (vertex_stencils.numControlVertices + vertex_stencils.stencils.length)
    patch_table := patch_table
    src_desc := ⟨0, 3, 3⟩
    src_varying_desc := ⟨0, 3, 3⟩
    num_coarse_vertices := vertex_stencils.numControlVertices
    vertex_stencils := vertex_stencils
    varying_stencils := varying_stencils
    face_varying_width := face_varying_width
    face_varying_evaluators :=
      mkFaceVaryingEvaluators 0 all_face_varying_stencils face_varying_width patch_table
    backend := backend }

/-- Mirrors `VolatileEvalOutput::updateData`. -/
def VolatileEvalOutput.updateData (e : VolatileEvalOutput) (src : List ℚ)
    (start_vertex num_vertices : Nat) : VolatileEvalOutput :=
  { e with src_data := e.src_data.UpdateData src start_vertex num_vertices }

/-- Mirrors `VolatileEvalOutput::updateVaryingData`. -/
def VolatileEvalOutput.updateVaryingData (e : VolatileEvalOutput) (src : List ℚ)
    (start_vertex num_vertices : Nat) : VolatileEvalOutput :=
  { e with src_varying_data := e.src_varying_data.UpdateData src start_vertex num_vertices }

/-- Mirrors `VolatileEvalOutput::updateFaceVaryingData`: forwards the update
to the channel's evaluator (the source asserts the channel range). -/
def VolatileEvalOutput.updateFaceVaryingData (e : VolatileEvalOutput)
    (face_varying_channel : Nat) (src : List ℚ) (start_vertex num_vertices : Nat) :
    VolatileEvalOutput :=
  { e with
    face_varying_evaluators := modifyChannel e.face_varying_evaluators face_varying_channel
      (fun fv => fv.updateData src start_vertex num_vertices) }

/-- Mirrors `VolatileEvalOutput::hasVaryingData`: hard-coded to false in the
source (the stencil-based check is commented out). -/
def VolatileEvalOutput.hasVaryingData (_e : VolatileEvalOutput) : Bool :=
  false

/-- Mirrors `VolatileEvalOutput::hasFaceVaryingData`. -/
def VolatileEvalOutput.hasFaceVaryingData (e : VolatileEvalOutput) : Bool :=
  e.face_varying_evaluators.length != 0

/-- The destination descriptor built at the top of
`VolatileEvalOutput::refine` for the position data: the source descriptor with
the offset advanced by `num_coarse_vertices_ * stride`. -/
def VolatileEvalOutput.refine_dst_desc (e : VolatileEvalOutput) : BufferDescriptor :=
  { e.src_desc with
    offset := e.src_desc.offset + e.num_coarse_vertices * e.src_desc.stride }

/-- Mirrors `VolatileEvalOutput::refine`: evaluates the vertex stencils in
place on the position buffer, then (if varying data is present, which the
source hard-codes to false) the varying stencils, then refines every
face-varying channel. -/
def VolatileEvalOutput.refine (e : VolatileEvalOutput) : VolatileEvalOutput :=
  let e1 : VolatileEvalOutput :=
    { e with src_data :=
        { e.src_data with
          data := EvalStencils e.src_data.data e.src_desc e.refine_dst_desc
            e.vertex_stencils } }
  let e2 : VolatileEvalOutput :=
    if e1.hasVaryingData then
      { e1 with src_varying_data :=
          { e1.src_varying_data with
            data := EvalStencils e1.src_varying_data.data e1.src_varying_desc
              ⟨e1.src_varying_desc.offset + e1.num_coarse_vertices * e1.src_varying_desc.stride,
                e1.src_varying_desc.width, e1.src_varying_desc.stride⟩
              e1.varying_stencils } }
    else e1
  if e2.hasFaceVaryingData then
    { e2 with face_varying_evaluators :=
        e2.face_varying_evaluators.map FaceVaryingVolatileEval.refine }
  else e2

/-- Mirrors `VolatileEvalOutput::evalPatches`: the backend position kernel is
invoked with the position buffer viewed through `src_desc_` (offset 0),
writing dense 3-wide values into `P`. -/
def VolatileEvalOutput.evalPatches (e : VolatileEvalOutput)
    (patch_coord : List PatchCoord) (P : Nat → ℚ) : Nat → ℚ :=
  EvalPatchesKernel
    (fun pc c => e.backend.evalPoint e.src_data.data e.src_desc e.patch_table pc c)
    3 patch_coord P

/-- Result triple of `VolatileEvalOutput::evalPatchesWithDerivatives`. -/
structure EvalPatchesDerivResult where
  P : Nat → ℚ
  dPdu : Nat → ℚ
  dPdv : Nat → ℚ

/-- Mirrors `VolatileEvalOutput::evalPatchesWithDerivatives`: the source
asserts that both derivative output pointers are non-null (`assert(dPdu)`,
`assert(dPdv)`); a null pointer is modelled as `none` and the assertion
failure as result `none`.  Otherwise the three kernels write position and the
two derivatives densely, each into its own output array. -/
def VolatileEvalOutput.evalPatchesWithDerivatives (e : VolatileEvalOutput)
    (patch_coord : List PatchCoord) (P : Nat → ℚ) (dPdu dPdv : Option (Nat → ℚ)) :
    Option EvalPatchesDerivResult :=
  match dPdu, dPdv with
  | some du0, some dv0 =>
    some
      { P := EvalPatchesKernel
          (fun pc c => e.backend.evalPoint e.src_data.data e.src_desc e.patch_table pc c)
          3 patch_coord P
        dPdu := EvalPatchesKernel
          (fun pc c => e.backend.evalPointDu e.src_data.data e.src_desc e.patch_table pc c)
          3 patch_coord du0
        dPdv := EvalPatchesKernel
          (fun pc c => e.backend.evalPointDv e.src_data.data e.src_desc e.patch_table pc c)
          3 patch_coord dv0 }
  | _, _ => none

/-- Mirrors `VolatileEvalOutput::evalPatchesVarying`: the varying kernel reads
the varying buffer through `src_varying_desc_` (offset 0). -/
def VolatileEvalOutput.evalPatchesVarying (e : VolatileEvalOutput)
    (patch_coord : List PatchCoord) (varying : Nat → ℚ) : Nat → ℚ :=
  EvalPatchesKernel
    (fun pc c => e.backend.evalVaryingPoint e.src_varying_data.data e.src_varying_desc
      e.patch_table pc c)
    3 patch_coord varying

/-- Mirrors `VolatileEvalOutput::evalPatchesFaceVarying`: forwards to the
channel's evaluator (the source asserts the channel range). -/
def VolatileEvalOutput.evalPatchesFaceVarying (e : VolatileEvalOutput)
    (face_varying_channel : Nat) (patch_coord : List PatchCoord)
    (face_varying : Nat → ℚ) : Nat → ℚ :=
  (e.face_varying_evaluators.getD face_varying_channel default).evalPatches
    e.backend patch_coord face_varying

/-- Identity of the storage the `effective_elements_` pointer of a
`StackOrHeapArray` refers to: null, the in-object stack storage, or a heap
allocation (distinguished by an allocation counter value). -/
inductive EffectivePtr
  | null
  | stack
  | heap (id : Nat)
deriving DecidableEq

/-- Mirrors the template class `StackOrHeapArray<T, kNumMaxElementsOnStack>`:
logical size, the contents of the stack storage and of the current heap
allocation (with its capacity), which storage the effective pointer refers
to, and a counter of heap allocations performed (which also serves as the
identity of the current heap allocation). -/
structure StackOrHeapArray (α : Type) (kmax : Nat) where
  num_elements : Nat
  stack_contents : Nat → α
  heap_cap : Nat
  heap_contents : Nat → α
  effective : EffectivePtr
  allocs : Nat

/-- Mirrors the default constructor of `StackOrHeapArray`: size 0, no heap
allocation, null effective pointer.  Unspecified contents are modelled by the
default element. -/
def StackOrHeapArray.mkEmpty {α : Type} [Inhabited α] (kmax : Nat) :
    StackOrHeapArray α kmax :=
  { num_elements := 0
    stack_contents := fun _ => default
    heap_cap := 0
    heap_contents := fun _ => default
    effective := .null
    allocs := 0 }

/-- The contents seen through the effective data pointer (`data()`); reading
through a null pointer is modelled by the default element. -/
def StackOrHeapArray.dataView {α : Type} [Inhabited α] {kmax : Nat}
    (a : StackOrHeapArray α kmax) : Nat → α :=
  match a.effective with
  | .null => fun _ => default
  | .stack => a.stack_contents
  | .heap _ => a.heap_contents

/-- The capacity of the storage currently backing the array: the fixed stack
capacity, or the size of the current heap allocation. -/
def StackOrHeapArray.capacity {α : Type} {kmax : Nat} (a : StackOrHeapArray α kmax) :
    Nat :=
  match a.effective with
  | .null => 0
  | .stack => kmax
  | .heap _ => a.heap_cap

/-- Mirrors `StackOrHeapArray::allocate(num_elements)`: returns the stack
storage when `num_elements < kNumMaxElementsOnStack`, otherwise performs a
fresh heap allocation (`heap_elements_ = new T[num_elements]`) with
unspecified contents. -/
def StackOrHeapArray.allocate {α : Type} [Inhabited α] {kmax : Nat}
    (a : StackOrHeapArray α kmax) (num_elements : Nat) :
    StackOrHeapArray α kmax × EffectivePtr :=
  if num_elements < kmax then (a, .stack)
  else
    ({ a with
       heap_cap := num_elements
       heap_contents := fun _ => default
       allocs := a.allocs + 1 },
     .heap (a.allocs + 1))

/-- Writes `src` into the first `count` positions of the storage `p` refers
to (the `memcpy` of `resize`); a null target is a no-op. -/
def StackOrHeapArray.copyInto {α : Type} {kmax : Nat} (a : StackOrHeapArray α kmax)
    (p : EffectivePtr) (src : Nat → α) (count : Nat) : StackOrHeapArray α kmax :=
  match p with
  | .null => a
  | .stack =>
    { a with stack_contents := fun k => if k < count then src k else a.stack_contents k }
  | .heap _ =>
    { a with heap_contents := fun k => if k < count then src k else a.heap_contents k }

/-- Mirrors `StackOrHeapArray::resize(num_elements)`: records the new logical
size; returns early when the old size is at least the new one; otherwise
allocates (first use sets the effective pointer with no copy; later uses copy
`min(old, new)` elements to the new storage when it differs from the old one
and release the old heap buffer). -/
def StackOrHeapArray.resize {α : Type} [Inhabited α] {kmax : Nat}
    (a : StackOrHeapArray α kmax) (num_elements : Nat) : StackOrHeapArray α kmax :=
  let old_num_elements := a.num_elements
  let a1 : StackOrHeapArray α kmax := { a with num_elements := num_elements }
  if old_num_elements ≥ num_elements then a1
  else if a1.effective = .null then
    let ap := a1.allocate num_elements
    { ap.1 with effective := ap.2 }
  else
    let old_buffer := a1.dataView
    let p_old := a1.effective
    let ap := a1.allocate num_elements
    let a3 :=
      if ap.2 ≠ p_old then
        ap.1.copyInto ap.2 old_buffer (min old_num_elements num_elements)
      else ap.1
    { a3 with effective := ap.2 }

/-- Writing one element through the data pointer
(`(array->data())[i] = v`); a null pointer write is a no-op (never reached by
the source's usage). -/
def StackOrHeapArray.setData {α : Type} {kmax : Nat} (a : StackOrHeapArray α kmax)
    (i : Nat) (v : α) : StackOrHeapArray α kmax :=
  match a.effective with
  | .null => a
  | .stack =>
    { a with stack_contents := fun k => if k = i then v else a.stack_contents k }
  | .heap _ =>
    { a with heap_contents := fun k => if k = i then v else a.heap_contents k }

/-- The staging array type of the source:
`StackOrHeapArray<PatchCoord, 32 * 32>`. -/
def StackOrHeapPatchCoordArray : Type :=
  StackOrHeapArray PatchCoord (32 * 32)

/-- The patch coordinate that one loop iteration of
`convertPatchCoordsToArray` stores for an unresolved coordinate: the handle
found by the patch map for `(ptex_face, u, v)` paired with the same `(u,v)`. -/
def resolveCoord (patch_map : Nat → ℚ → ℚ → PatchHandle)
    (pc : OpenSubdiv_PatchCoord) : PatchCoord :=
  ⟨patch_map pc.ptex_face pc.u pc.v, pc.u, pc.v⟩

/-- The write loop of `convertPatchCoordsToArray`. -/
def convertLoop (patch_map : Nat → ℚ → ℚ → PatchHandle) :
    List OpenSubdiv_PatchCoord → Nat → StackOrHeapPatchCoordArray →
    StackOrHeapPatchCoordArray
  | [], _, a => a
  | pc :: rest, i, a => convertLoop patch_map rest (i + 1) (a.setData i (resolveCoord patch_map pc))

/-- Mirrors `convertPatchCoordsToArray`: resizes the staging array to the
batch size and stores, for each input coordinate, the patch-map-resolved
`PatchCoord`. -/
def convertPatchCoordsToArray (patch_coords : List OpenSubdiv_PatchCoord)
    (patch_map : Nat → ℚ → ℚ → PatchHandle) (array : StackOrHeapPatchCoordArray) :
    StackOrHeapPatchCoordArray :=
  convertLoop patch_map patch_coords 0
    (StackOrHeapArray.resize array patch_coords.length)

/-- Mirrors the class `EvalOutputAPI`: the evaluator implementation plus the
patch map.  The patch map lookup itself (`PatchMap::FindPatch`, in
`internal/evaluator/patch_map.h`, which is repository code not under `src/`)
is modelled from the spec: the `PatchCoordinateLocator` is a deterministic
lookup from a face index and parametric coordinates to a patch handle,
represented here as a function field. -/
structure EvalOutputAPI where
  implementation : VolatileEvalOutput
  patch_map : Nat → ℚ → ℚ → PatchHandle

/-- Result of a limit evaluation: position output array, and the derivative
output arrays when they were requested (`none` models a null pointer left
untouched). -/
structure LimitResult where
  P : Nat → ℚ
  dPdu : Option (Nat → ℚ)
  dPdv : Option (Nat → ℚ)

/-- Mirrors `EvalOutputAPI::evaluateLimit`: resolves the single coordinate
through the patch map, then takes the derivative path when at least one
derivative pointer is non-null (that path asserts both), else the plain
path.  `none` models the assertion failure. -/
def EvalOutputAPI.evaluateLimit (api : EvalOutputAPI) (ptex_face_index : Nat)
    (face_u face_v : ℚ) (P : Nat → ℚ) (dPdu dPdv : Option (Nat → ℚ)) :
    Option LimitResult :=
  let handle := api.patch_map ptex_face_index face_u face_v
  let patch_coord : PatchCoord := ⟨handle, face_u, face_v⟩
  if dPdu.isSome || dPdv.isSome then
    match api.implementation.evalPatchesWithDerivatives [patch_coord] P dPdu dPdv with
    | some r => some ⟨r.P, some r.dPdu, some r.dPdv⟩
    | none => none
  else
    some ⟨api.implementation.evalPatches [patch_coord] P, dPdu, dPdv⟩

/-- Mirrors `EvalOutputAPI::evaluateVarying`. -/
def EvalOutputAPI.evaluateVarying (api : EvalOutputAPI) (ptex_face_index : Nat)
    (face_u face_v : ℚ) (varying : Nat → ℚ) : Nat → ℚ :=
  let handle := api.patch_map ptex_face_index face_u face_v
  let patch_coord : PatchCoord := ⟨handle, face_u, face_v⟩
  api.implementation.evalPatchesVarying [patch_coord] varying

/-- Mirrors `EvalOutputAPI::evaluateFaceVarying`. -/
def EvalOutputAPI.evaluateFaceVarying (api : EvalOutputAPI) (face_varying_channel : Nat)
    (ptex_face_index : Nat) (face_u face_v : ℚ) (face_varying : Nat → ℚ) : Nat → ℚ :=
  let handle := api.patch_map ptex_face_index face_u face_v
  let patch_coord : PatchCoord := ⟨handle, face_u, face_v⟩
  api.implementation.evalPatchesFaceVarying face_varying_channel [patch_coord] face_varying

/-- Mirrors `EvalOutputAPI::refine`. -/
def EvalOutputAPI.refine (api : EvalOutputAPI) : EvalOutputAPI :=
  { api with implementation := api.implementation.refine }

/-- Mirrors `EvalOutputAPI::evaluatePatchesLimit`: stages the batch through a
fresh `StackOrHeapPatchCoordArray` via `convertPatchCoordsToArray`, then takes
the derivative path when at least one derivative pointer is non-null (that
path asserts both), else the plain path.  The evaluator kernels read the
first `num_patch_coords` staged entries. -/
def EvalOutputAPI.evaluatePatchesLimit (api : EvalOutputAPI)
    (patch_coords : List OpenSubdiv_PatchCoord) (P : Nat → ℚ)
    (dPdu dPdv : Option (Nat → ℚ)) : Option LimitResult :=
  let patch_coords_array :=
    convertPatchCoordsToArray patch_coords api.patch_map
      (StackOrHeapArray.mkEmpty (32 * 32))
  let staged :=
    (List.range patch_coords.length).map (fun i => patch_coords_array.dataView i)
  if dPdu.isSome || dPdv.isSome then
    match api.implementation.evalPatchesWithDerivatives staged P dPdu dPdv with
    | some r => some ⟨r.P, some r.dPdu, some r.dPdv⟩
    | none => none
  else
    some ⟨api.implementation.evalPatches staged P, dPdu, dPdv⟩

/-- Modelled from the spec: the evaluator type enum of the C API header (not
under `src/`).  The source only implements the CPU and GLSL-compute types;
the spec states that unsupported substrate kinds exist and make construction
fail, represented here by one extra constructor. -/
inductive eOpenSubdivEvaluator
  | OPENSUBDIV_EVALUATOR_CPU
  | OPENSUBDIV_EVALUATOR_GLSL_COMPUTE
  | OPENSUBDIV_EVALUATOR_OTHER
deriving DecidableEq

/-- Modelled from the spec: the outputs of the upstream topology refinement
and table factories (`Far::TopologyRefiner`, `StencilTableFactory`,
`PatchTableFactory`, all OpenSubdiv code outside this repository) that
evaluator construction consumes: the vertex stencil table (with local point
stencils already appended), one face-varying stencil table per channel, the
patch table, and the patch map lookup derived from it. -/
structure TopologyRefiner where
  vertex_stencils : StencilTable
  face_varying_stencils : List StencilTable
  patch_table : PatchTable
  patch_map_fn : Nat → ℚ → ℚ → PatchHandle
  subdivision_level : Nat
  is_adaptive_refinement : Bool

/-- Mirrors the C API wrapper: `topology_refiner->impl->topology_refiner` is
a possibly-null pointer to the refiner (null when upstream refinement failed
on bad topology). -/
structure OpenSubdiv_TopologyRefiner where
  topology_refiner : Option TopologyRefiner

/-- Modelled from the spec: `EvaluatorCacheT<EVALUATOR>` (OpenSubdiv code
outside this repository), a memo of compiled kernels keyed by the buffer
layout pair; a freshly created cache holds no entries. -/
structure EvaluatorCacheModel where
  cached_layout_keys : List (BufferDescriptor × BufferDescriptor)
deriving DecidableEq

/-- Mirrors `OpenSubdiv_EvaluatorCacheImpl`: holds a possibly-null pointer to
the backend evaluator cache. -/
structure OpenSubdiv_EvaluatorCacheImpl where
  eval_cache : Option EvaluatorCacheModel
deriving DecidableEq

/-- Mirrors `OpenSubdiv_EvaluatorImpl`: the wrapped evaluator plus the patch
map and patch table it owns. -/
structure OpenSubdiv_EvaluatorImpl where
  eval_output : EvalOutputAPI
  patch_table : PatchTable

/-- Mirrors `openSubdiv_createEvaluatorInternal`: returns null unless the
evaluator type is CPU or GLSL-compute; returns null when the inner topology
refiner pointer is null (bad topology); otherwise refines the topology,
builds the stencil and patch tables (external factories, carried by the
modelled `TopologyRefiner`), creates the GPU or CPU evaluator output with
face-varying width 2, and wraps it with the patch map.  The two backends are
parameters standing for the `CpuEvaluator` and `GLComputeEvaluator` kernel
sets. -/
def openSubdiv_createEvaluatorInternal (cpu_backend gl_backend : Evaluator)
    (topology_refiner : OpenSubdiv_TopologyRefiner)
    (evaluator_type : eOpenSubdivEvaluator)
    (_evaluator_cache_descr : Option OpenSubdiv_EvaluatorCacheImpl) :
    Option OpenSubdiv_EvaluatorImpl :=
  if evaluator_type ≠ .OPENSUBDIV_EVALUATOR_CPU ∧
      evaluator_type ≠ .OPENSUBDIV_EVALUATOR_GLSL_COMPUTE then
    none
  else
    match topology_refiner.topology_refiner with
    | none => none
    | some refiner =>
      let use_gl_evaluator := evaluator_type = .OPENSUBDIV_EVALUATOR_GLSL_COMPUTE
      let backend := if use_gl_evaluator then gl_backend else cpu_backend
      let eval_output := VolatileEvalOutput.create refiner.vertex_stencils ⟨0, []⟩
        refiner.face_varying_stencils 2 refiner.patch_table backend
      some
        { eval_output := { implementation := eval_output, patch_map := refiner.patch_map_fn }
          patch_table := refiner.patch_table }

/-- Mirrors `openSubdiv_createEvaluatorCacheInternal`: null for every
evaluator type except GLSL-compute; for GLSL-compute, a cache impl holding a
freshly created evaluator cache. -/
def openSubdiv_createEvaluatorCacheInternal (evaluator_type : eOpenSubdivEvaluator) :
    Option OpenSubdiv_EvaluatorCacheImpl :=
  if evaluator_type ≠ .OPENSUBDIV_EVALUATOR_GLSL_COMPUTE then none
  else some { eval_cache := some { cached_layout_keys := [] } }

/-! General lemmas about the stencil kernel. -/

lemma listSum_map_congr {γ : Type} (l : List γ) (f g : γ → ℚ)
    (h : ∀ x ∈ l, f x = g x) : (l.map f).sum = (l.map g).sum := by
  induction l with
  | nil => rfl
  | cons a l ih =>
    simp only [List.map_cons, List.sum_cons]
    rw [h a (List.mem_cons_self a l), ih (fun x hx => h x (List.mem_cons_of_mem a hx))]

lemma listSum_map_mul_linear (l : List (Nat × ℚ)) (F G : Nat × ℚ → ℚ) (a b : ℚ) :
    (l.map (fun p => p.2 * (a * F p + b * G p))).sum
      = a * (l.map (fun p => p.2 * F p)).sum + b * (l.map (fun p => p.2 * G p)).sum := by
  induction l with
  | nil => simp
  | cons x l ih =>
    simp only [List.map_cons, List.sum_cons, ih]
    ring

lemma stencilValue_congr (srcD : BufferDescriptor) (A B : Nat → ℚ) (st : Stencil)
    (c : Nat)
    (h : ∀ p ∈ st.pairs,
      A (srcD.offset + p.1 * srcD.stride + c) = B (srcD.offset + p.1 * srcD.stride + c)) :
    stencilValue srcD A st c = stencilValue srcD B st c := by
  unfold stencilValue
  exact listSum_map_congr _ _ _ (fun p hp => by rw [h p hp])

lemma stencilValue_linear (srcD : BufferDescriptor) (A B : Nat → ℚ) (a b : ℚ)
    (st : Stencil) (c : Nat) :
    stencilValue srcD (fun j => a * A j + b * B j) st c
      = a * stencilValue srcD A st c + b * stencilValue srcD B st c := by
  unfold stencilValue
  exact listSum_map_mul_linear st.pairs
    (fun p => A (srcD.offset + p.1 * srcD.stride + c))
    (fun p => B (srcD.offset + p.1 * srcD.stride + c)) a b

lemma runStencils_low (srcD dstD : BufferDescriptor) (rest : List Stencil) :
    ∀ (i : Nat) (buf : Nat → ℚ) (k : Nat), k < dstD.offset + i * dstD.stride →
      runStencils srcD dstD i rest buf k = buf k := by
  induction rest with
  | nil => intro i buf k _; rfl
  | cons st rest ih =>
    intro i buf k hk
    have hstep : dstD.offset + i * dstD.stride ≤ dstD.offset + (i + 1) * dstD.stride :=
      Nat.add_le_add_left (Nat.mul_le_mul_right _ (Nat.le_succ i)) _
    rw [runStencils, ih (i + 1) _ k (lt_of_lt_of_le hk hstep)]
    simp only [writeOne]
    rw [if_neg (fun hc => absurd hc.1 (Nat.not_le.mpr hk))]

lemma runStencils_high (srcD dstD : BufferDescriptor) (rest : List Stencil)
    (hw : dstD.width ≤ dstD.stride) :
    ∀ (i : Nat) (buf : Nat → ℚ) (k : Nat),
      dstD.offset + (i + rest.length) * dstD.stride ≤ k →
      runStencils srcD dstD i rest buf k = buf k := by
  induction rest with
  | nil => intro i buf k _; rfl
  | cons st rest ih =>
    intro i buf k hk
    have hlen : i + (st :: rest).length = (i + 1) + rest.length := by
      simp only [List.length_cons]
      omega
    rw [hlen] at hk
    rw [runStencils, ih (i + 1) _ k hk]
    have hge : dstD.offset + i * dstD.stride + dstD.width ≤ k := by
      have h1 : dstD.offset + i * dstD.stride + dstD.width
          ≤ dstD.offset + (i + 1) * dstD.stride := by
        rw [Nat.add_mul, Nat.one_mul]
        omega
      have h2 : dstD.offset + (i + 1) * dstD.stride
          ≤ dstD.offset + ((i + 1) + rest.length) * dstD.stride :=
        Nat.add_le_add_left (Nat.mul_le_mul_right _ (Nat.le_add_right _ _)) _
      omega
    simp only [writeOne]
    rw [if_neg (fun hc => absurd hc.2 (Nat.not_lt.mpr hge))]

lemma belowOwnB_cons (b : Nat) (st : Stencil) (rest : List Stencil)
    (hb : belowOwnB b (st :: rest) = true) :
    (∀ p ∈ st.pairs, p.1 < b) ∧ belowOwnB (b + 1) rest = true := by
  simp only [belowOwnB, Bool.and_eq_true, List.all_eq_true, decide_eq_true_eq] at hb
  exact hb

lemma read_pos_low (w nc i : Nat) (p : Nat × ℚ) (c : Nat) (hc : c < w)
    (hp : p.1 < nc + i) : p.1 * w + c < nc * w + i * w := by
  have h2 : (p.1 + 1) * w ≤ (nc + i) * w := Nat.mul_le_mul_right _ (by omega)
  simp only [Nat.add_mul, Nat.one_mul] at h2
  omega

lemma runStencils_low' (w nc : Nat) (rest : List Stencil) (i : Nat) (buf : Nat → ℚ)
    (k : Nat) (hk : k < nc * w + i * w) :
    runStencils ⟨0, w, w⟩ ⟨nc * w, w, w⟩ i rest buf k = buf k :=
  runStencils_low _ _ rest i buf k (by dsimp only; exact hk)

lemma runStencils_high' (w nc : Nat) (rest : List Stencil) (i : Nat) (buf : Nat → ℚ)
    (k : Nat) (hk : nc * w + i * w + rest.length * w ≤ k) :
    runStencils ⟨0, w, w⟩ ⟨nc * w, w, w⟩ i rest buf k = buf k :=
  runStencils_high _ _ rest (by dsimp only; exact Nat.le_refl w) i buf k
    (by dsimp only; rw [Nat.add_mul]; omega)

lemma writeOne_in' (w nc i : Nat) (st : Stencil) (buf : Nat → ℚ) (c : Nat) (hc : c < w) :
    writeOne ⟨0, w, w⟩ ⟨nc * w, w, w⟩ i st buf (nc * w + i * w + c)
      = stencilValue ⟨0, w, w⟩ buf st c := by
  simp only [writeOne]
  rw [if_pos ⟨by omega, by omega⟩]
  congr 1
  omega

lemma writeOne_out' (w nc i : Nat) (st : Stencil) (buf : Nat → ℚ) (k : Nat)
    (hk : k < nc * w + i * w ∨ nc * w + i * w + w ≤ k) :
    writeOne ⟨0, w, w⟩ ⟨nc * w, w, w⟩ i st buf k = buf k := by
  simp only [writeOne]
  rw [if_neg (by omega)]

lemma stencilValue_congr' (w : Nat) (A B : Nat → ℚ) (st : Stencil) (c : Nat)
    (h : ∀ p ∈ st.pairs, A (p.1 * w + c) = B (p.1 * w + c)) :
    stencilValue ⟨0, w, w⟩ A st c = stencilValue ⟨0, w, w⟩ B st c := by
  apply stencilValue_congr
  intro p hp
  have hpos : (⟨0, w, w⟩ : BufferDescriptor).offset +
      p.1 * (⟨0, w, w⟩ : BufferDescriptor).stride + c = p.1 * w + c := by
    dsimp only
    omega
  rw [hpos]
  exact h p hp

lemma runStencils_final (w nc : Nat) (rest : List Stencil) :
    ∀ (i : Nat) (buf : Nat → ℚ), belowOwnB (nc + i) rest = true →
      ∀ (t : Nat) (ht : t < rest.length) (c : Nat), c < w →
        runStencils ⟨0, w, w⟩ ⟨nc * w, w, w⟩ i rest buf (nc * w + i * w + t * w + c)
          = stencilValue ⟨0, w, w⟩ (runStencils ⟨0, w, w⟩ ⟨nc * w, w, w⟩ i rest buf)
              (rest.get ⟨t, ht⟩) c := by
  induction rest with
  | nil => intro i buf _ t ht; exact absurd ht (by simp)
  | cons st rest ih =>
    intro i buf hb t ht c hc
    obtain ⟨hhead, htail⟩ := belowOwnB_cons _ _ _ hb
    have htail' : belowOwnB (nc + (i + 1)) rest = true := by
      have : nc + (i + 1) = nc + i + 1 := by omega
      rw [this]
      exact htail
    match t with
    | 0 =>
      have hposeq : nc * w + i * w + 0 * w + c = nc * w + i * w + c := by
        rw [Nat.zero_mul]
        omega
      have hbound : nc * w + i * w + c < nc * w + (i + 1) * w := by
        simp only [Nat.add_mul, Nat.one_mul]
        omega
      rw [hposeq, runStencils, runStencils_low' w nc rest (i + 1) _ _ hbound,
        writeOne_in' w nc i st buf c hc]
      have hget : (st :: rest).get ⟨0, ht⟩ = st := rfl
      rw [hget]
      apply stencilValue_congr' w
      intro p hp
      have hread : p.1 * w + c < nc * w + i * w :=
        read_pos_low w nc i p c hc (hhead p hp)
      have hread1 : p.1 * w + c < nc * w + (i + 1) * w := by
        simp only [Nat.add_mul, Nat.one_mul]
        omega
      rw [runStencils_low' w nc rest (i + 1) _ _ hread1,
        writeOne_out' w nc i st buf _ (Or.inl hread)]
    | t' + 1 =>
      have harith : nc * w + i * w + (t' + 1) * w + c
          = nc * w + (i + 1) * w + t' * w + c := by
        simp only [Nat.add_mul, Nat.one_mul]
        omega
      rw [harith, runStencils]
      have ht' : t' < rest.length := by
        simp only [List.length_cons] at ht
        omega
      have hget : (st :: rest).get ⟨t' + 1, ht⟩ = rest.get ⟨t', ht'⟩ := rfl
      rw [hget]
      exact ih (i + 1) (writeOne ⟨0, w, w⟩ ⟨nc * w, w, w⟩ i st buf) htail' t' ht' c hc

lemma runStencils_agree (w nc : Nat) (rest : List Stencil) :
    ∀ (i : Nat) (A B : Nat → ℚ), belowOwnB (nc + i) rest = true →
      (∀ k, k < nc * w + i * w → A k = B k) →
      ∀ k, k < nc * w + i * w + rest.length * w →
        runStencils ⟨0, w, w⟩ ⟨nc * w, w, w⟩ i rest A k
          = runStencils ⟨0, w, w⟩ ⟨nc * w, w, w⟩ i rest B k := by
  induction rest with
  | nil =>
    intro i A B _ hAB k hk
    simp only [List.length_nil, Nat.zero_mul, Nat.add_zero] at hk
    exact hAB k hk
  | cons st rest ih =>
    intro i A B hb hAB k hk
    obtain ⟨hhead, htail⟩ := belowOwnB_cons _ _ _ hb
    have htail' : belowOwnB (nc + (i + 1)) rest = true := by
      have harith : nc + (i + 1) = nc + i + 1 := by omega
      rw [harith]
      exact htail
    rw [runStencils, runStencils]
    have hAB' : ∀ j, j < nc * w + (i + 1) * w →
        writeOne ⟨0, w, w⟩ ⟨nc * w, w, w⟩ i st A j
          = writeOne ⟨0, w, w⟩ ⟨nc * w, w, w⟩ i st B j := by
      intro j hj
      by_cases hwin : nc * w + i * w ≤ j ∧ j < nc * w + i * w + w
      · obtain ⟨hw1, hw2⟩ := hwin
        have hj' : j = nc * w + i * w + (j - (nc * w + i * w)) := by omega
        have hcw : j - (nc * w + i * w) < w := by omega
        rw [hj', writeOne_in' w nc i st A _ hcw, writeOne_in' w nc i st B _ hcw]
        apply stencilValue_congr' w
        intro p hp
        exact hAB _ (read_pos_low w nc i p _ hcw (hhead p hp))
      · have hout : j < nc * w + i * w ∨ nc * w + i * w + w ≤ j := by omega
        rw [writeOne_out' w nc i st A j hout, writeOne_out' w nc i st B j hout]
        have hjlow : j < nc * w + i * w := by
          simp only [Nat.add_mul, Nat.one_mul] at hj
          omega
        exact hAB j hjlow
    apply ih (i + 1) _ _ htail' hAB' k
    simp only [Nat.add_mul, Nat.one_mul, List.length_cons] at hk ⊢
    omega

lemma runStencils_idem (w nc : Nat) (sts : List Stencil) (buf : Nat → ℚ)
    (hb : belowOwnB nc sts = true) (k : Nat) :
    runStencils ⟨0, w, w⟩ ⟨nc * w, w, w⟩ 0 sts
        (runStencils ⟨0, w, w⟩ ⟨nc * w, w, w⟩ 0 sts buf) k
      = runStencils ⟨0, w, w⟩ ⟨nc * w, w, w⟩ 0 sts buf k := by
  have hb0 : belowOwnB (nc + 0) sts = true := by
    rw [Nat.add_zero]
    exact hb
  by_cases hk : k < nc * w + 0 * w + sts.length * w
  · apply runStencils_agree w nc sts 0 _ _ hb0 _ k hk
    intro j hj
    exact runStencils_low' w nc sts 0 buf j hj
  · exact runStencils_high' w nc sts 0 _ k (by omega)

lemma runStencils_linear (srcD dstD : BufferDescriptor) (rest : List Stencil) :
    ∀ (i : Nat) (A B : Nat → ℚ) (a b : ℚ) (k : Nat),
      runStencils srcD dstD i rest (fun j => a * A j + b * B j) k
        = a * runStencils srcD dstD i rest A k + b * runStencils srcD dstD i rest B k := by
  induction rest with
  | nil => intro i A B a b k; rfl
  | cons st rest ih =>
    intro i A B a b k
    rw [runStencils]
    have hw : writeOne srcD dstD i st (fun j => a * A j + b * B j)
        = fun j => a * writeOne srcD dstD i st A j + b * writeOne srcD dstD i st B j := by
      funext j
      simp only [writeOne]
      by_cases hcond : dstD.offset + i * dstD.stride ≤ j ∧
          j < dstD.offset + i * dstD.stride + dstD.width
      · rw [if_pos hcond, if_pos hcond, if_pos hcond]
        exact stencilValue_linear srcD A B a b st _
      · rw [if_neg hcond, if_neg hcond, if_neg hcond]
    rw [hw, ih (i + 1) _ _ a b k, runStencils, runStencils]

/-! Lemmas about the evaluator objects. -/

lemma VolatileEvalOutput.refine_eq (e : VolatileEvalOutput) :
    e.refine = { e with
      src_data := { e.src_data with
        data := EvalStencils e.src_data.data e.src_desc e.refine_dst_desc
          e.vertex_stencils }
      face_varying_evaluators :=
        e.face_varying_evaluators.map FaceVaryingVolatileEval.refine } := by
  obtain ⟨sd, svd, pt, sdesc, svdesc, ncv, vst, vast, fvw, fvs, be⟩ := e
  simp only [VolatileEvalOutput.refine, VolatileEvalOutput.hasVaryingData,
    VolatileEvalOutput.hasFaceVaryingData, Bool.false_eq_true, if_false]
  by_cases hfv : fvs.length = 0
  · rw [List.length_eq_zero.mp hfv]
    simp
  · have hcond : (fvs.length != 0) = true := by
      simpa using hfv
    rw [if_pos hcond]

lemma EvalStencils_spec (w nc : Nat) (sts : List Stencil) (buf : Nat → ℚ)
    (hb : belowOwnB nc sts = true) :
    (∀ k, k < nc * w → runStencils ⟨0, w, w⟩ ⟨nc * w, w, w⟩ 0 sts buf k = buf k)
    ∧ (∀ t, ∀ ht : t < sts.length, ∀ c, c < w →
        runStencils ⟨0, w, w⟩ ⟨nc * w, w, w⟩ 0 sts buf (nc * w + t * w + c)
          = stencilValue ⟨0, w, w⟩ (runStencils ⟨0, w, w⟩ ⟨nc * w, w, w⟩ 0 sts buf)
              (sts.get ⟨t, ht⟩) c) := by
  constructor
  · intro k hk
    exact runStencils_low' w nc sts 0 buf k (by omega)
  · intro t ht c hc
    have hb0 : belowOwnB (nc + 0) sts = true := by
      rw [Nat.add_zero]
      exact hb
    have hpos : nc * w + t * w + c = nc * w + 0 * w + t * w + c := by omega
    rw [hpos]
    exact runStencils_final w nc sts 0 buf hb0 t ht c hc

lemma EvalStencils_idem' (w nc : Nat) (table : StencilTable) (buf : Nat → ℚ)
    (hb : belowOwnB nc table.stencils = true) :
    EvalStencils (EvalStencils buf ⟨0, w, w⟩ ⟨nc * w, w, w⟩ table)
        ⟨0, w, w⟩ ⟨nc * w, w, w⟩ table
      = EvalStencils buf ⟨0, w, w⟩ ⟨nc * w, w, w⟩ table :=
  funext fun k => runStencils_idem w nc table.stencils buf hb k

lemma FaceVaryingVolatileEval.refine_idem (fv : FaceVaryingVolatileEval)
    (hoff : fv.src_face_varying_desc.offset = 0)
    (hws : fv.src_face_varying_desc.width = fv.src_face_varying_desc.stride)
    (hb : belowOwnB fv.num_coarse_face_varying_vertices
      fv.face_varying_stencils.stencils = true) :
    fv.refine.refine = fv.refine := by
  obtain ⟨ch, desc, nc, buf, sts, pt⟩ := fv
  obtain ⟨doff, dw, ds⟩ := desc
  simp only at hoff hws hb
  subst hoff hws
  simp only [FaceVaryingVolatileEval.refine, FaceVaryingVolatileEval.refine_dst_desc]
  have hdst : ({ offset := 0 + nc * dw, width := dw, stride := dw } : BufferDescriptor)
      = ⟨nc * dw, dw, dw⟩ := by
    rw [Nat.zero_add]
  simp only [hdst]
  rw [EvalStencils_idem' dw nc sts buf.data hb]

lemma modifyChannel_getD (l : List FaceVaryingVolatileEval) :
    ∀ (ch j : Nat) (f : FaceVaryingVolatileEval → FaceVaryingVolatileEval)
      (d : FaceVaryingVolatileEval), j ≠ ch →
      (modifyChannel l ch f).getD j d = l.getD j d := by
  induction l with
  | nil =>
    intro ch j f d _
    cases ch <;> rfl
  | cons x xs ih =>
    intro ch j f d hne
    match ch, j with
    | 0, 0 => exact absurd rfl hne
    | 0, j + 1 => rfl
    | ch + 1, 0 => rfl
    | ch + 1, j + 1 =>
      show (x :: modifyChannel xs ch f).getD (j + 1) d = (x :: xs).getD (j + 1) d
      rw [List.getD_cons_succ, List.getD_cons_succ]
      exact ih ch j f d (by omega)

lemma modifyChannel_map_getD (l : List FaceVaryingVolatileEval)
    (g : FaceVaryingVolatileEval → FaceVaryingVolatileEval) :
    ∀ (ch j : Nat) (f : FaceVaryingVolatileEval → FaceVaryingVolatileEval)
      (d : FaceVaryingVolatileEval), j ≠ ch →
      ((modifyChannel l ch f).map g).getD j d = (l.map g).getD j d := by
  induction l with
  | nil =>
    intro ch j f d _
    cases ch <;> rfl
  | cons x xs ih =>
    intro ch j f d hne
    match ch, j with
    | 0, 0 => exact absurd rfl hne
    | 0, j + 1 => rfl
    | ch + 1, 0 => rfl
    | ch + 1, j + 1 =>
      show ((x :: modifyChannel xs ch f).map g).getD (j + 1) d
        = ((x :: xs).map g).getD (j + 1) d
      rw [List.map_cons, List.map_cons, List.getD_cons_succ, List.getD_cons_succ]
      exact ih ch j f d (by omega)

/-! Lemmas about the stack-or-heap staging array. -/

/-- Well-formedness of a `StackOrHeapArray` state, maintained by the real
object: a null effective pointer only occurs at size 0, and the identity of
the current heap allocation never exceeds the allocation counter (a fresh
`new[]` always yields a pointer distinct from the live one). -/
def StackOrHeapArray.WF {α : Type} {kmax : Nat} (a : StackOrHeapArray α kmax) : Bool :=
  match a.effective with
  | .null => a.num_elements == 0
  | .stack => true
  | .heap id => decide (id ≤ a.allocs)

lemma StackOrHeapArray.resize_noalloc {α : Type} [Inhabited α] {kmax : Nat}
    (a : StackOrHeapArray α kmax) (n : Nat) (hle : n ≤ a.num_elements) :
    a.resize n = { a with num_elements := n } := by
  simp only [StackOrHeapArray.resize]
  rw [if_pos hle]

lemma StackOrHeapArray.resize_preserves {α : Type} [Inhabited α] {kmax : Nat}
    (a : StackOrHeapArray α kmax) (n k : Nat) (hwf : a.WF = true)
    (hk : k < min a.num_elements n) :
    (a.resize n).dataView k = a.dataView k := by
  by_cases hle : a.num_elements ≥ n
  · rw [StackOrHeapArray.resize_noalloc a n hle]
    rfl
  · have hold : k < a.num_elements := lt_of_lt_of_le hk (Nat.min_le_left _ _)
    have hmin : min a.num_elements n = a.num_elements :=
      Nat.min_eq_left (by omega)
    obtain ⟨num, sc, hcap, hcont, eff, al⟩ := a
    simp only [StackOrHeapArray.resize]
    rw [if_neg hle]
    simp only at hold hmin
    cases eff with
    | null =>
      simp only [StackOrHeapArray.WF, beq_iff_eq] at hwf
      omega
    | stack =>
      rw [if_neg (by simp [StackOrHeapArray.allocate])]
      by_cases hkm : n < kmax
      · simp [StackOrHeapArray.allocate, hkm, StackOrHeapArray.copyInto,
          StackOrHeapArray.dataView]
      · simp only [StackOrHeapArray.allocate, if_neg hkm]
        rw [if_pos (by simp)]
        simp [StackOrHeapArray.copyInto, StackOrHeapArray.dataView, hmin, hold]
    | heap id =>
      simp only [StackOrHeapArray.WF, decide_eq_true_eq] at hwf
      rw [if_neg (by simp [StackOrHeapArray.allocate])]
      by_cases hkm : n < kmax
      · simp only [StackOrHeapArray.allocate, if_pos hkm]
        rw [if_pos (by simp)]
        simp [StackOrHeapArray.copyInto, StackOrHeapArray.dataView, hmin, hold]
      · simp only [StackOrHeapArray.allocate, if_neg hkm]
        rw [if_pos (by simp; omega)]
        simp [StackOrHeapArray.copyInto, StackOrHeapArray.dataView, hmin, hold]

lemma StackOrHeapArray.setData_effective {α : Type} {kmax : Nat}
    (a : StackOrHeapArray α kmax) (i : Nat) (v : α) :
    (a.setData i v).effective = a.effective := by
  obtain ⟨num, sc, hcap, hcont, eff, al⟩ := a
  cases eff <;> rfl

lemma StackOrHeapArray.dataView_setData_ne {α : Type} [Inhabited α] {kmax : Nat}
    (a : StackOrHeapArray α kmax) (i : Nat) (v : α) (j : Nat) (hne : j ≠ i) :
    (a.setData i v).dataView j = a.dataView j := by
  obtain ⟨num, sc, hcap, hcont, eff, al⟩ := a
  cases eff with
  | null => rfl
  | stack => simp [StackOrHeapArray.setData, StackOrHeapArray.dataView, hne]
  | heap id => simp [StackOrHeapArray.setData, StackOrHeapArray.dataView, hne]

lemma StackOrHeapArray.dataView_setData_self {α : Type} [Inhabited α] {kmax : Nat}
    (a : StackOrHeapArray α kmax) (i : Nat) (v : α) (h : a.effective ≠ .null) :
    (a.setData i v).dataView i = v := by
  obtain ⟨num, sc, hcap, hcont, eff, al⟩ := a
  cases eff with
  | null => exact absurd rfl h
  | stack => simp [StackOrHeapArray.setData, StackOrHeapArray.dataView]
  | heap id => simp [StackOrHeapArray.setData, StackOrHeapArray.dataView]

lemma convertLoop_effective (pm : Nat → ℚ → ℚ → PatchHandle)
    (rest : List OpenSubdiv_PatchCoord) :
    ∀ (i0 : Nat) (a : StackOrHeapPatchCoordArray),
      (convertLoop pm rest i0 a).effective = a.effective := by
  induction rest with
  | nil => intro i0 a; rfl
  | cons pc rest ih =>
    intro i0 a
    rw [convertLoop, ih (i0 + 1) _, StackOrHeapArray.setData_effective]

lemma convertLoop_untouched (pm : Nat → ℚ → ℚ → PatchHandle)
    (rest : List OpenSubdiv_PatchCoord) :
    ∀ (i0 : Nat) (a : StackOrHeapPatchCoordArray) (j : Nat), j < i0 →
      (convertLoop pm rest i0 a).dataView j = a.dataView j := by
  induction rest with
  | nil => intro i0 a j _; rfl
  | cons pc rest ih =>
    intro i0 a j hj
    rw [convertLoop, ih (i0 + 1) _ j (by omega),
      StackOrHeapArray.dataView_setData_ne _ _ _ j (by omega)]

lemma convertLoop_dataView (pm : Nat → ℚ → ℚ → PatchHandle)
    (rest : List OpenSubdiv_PatchCoord) :
    ∀ (i0 : Nat) (a : StackOrHeapPatchCoordArray), a.effective ≠ .null →
      ∀ (t : Nat), t < rest.length →
        (convertLoop pm rest i0 a).dataView (i0 + t)
          = resolveCoord pm (rest.getD t default) := by
  induction rest with
  | nil => intro i0 a _ t ht; exact absurd ht (by simp)
  | cons pc rest ih =>
    intro i0 a ha t ht
    match t with
    | 0 =>
      simp only [Nat.add_zero, List.getD_cons_zero]
      rw [convertLoop, convertLoop_untouched pm rest (i0 + 1) _ i0 (by omega),
        StackOrHeapArray.dataView_setData_self a i0 _ ha]
    | t' + 1 =>
      have harith : i0 + (t' + 1) = (i0 + 1) + t' := by omega
      have ha' : (a.setData i0 (resolveCoord pm pc)).effective ≠ .null := by
        rw [StackOrHeapArray.setData_effective]
        exact ha
      rw [convertLoop, harith,
        ih (i0 + 1) _ ha' t' (by simpa using Nat.lt_of_succ_lt_succ ht)]
      rfl

lemma mkEmpty_resize_effective {α : Type} [Inhabited α] (kmax N : Nat) (hN : 0 < N) :
    ((StackOrHeapArray.mkEmpty (α := α) kmax).resize N).effective ≠ .null := by
  have hN' : ¬(N = 0) := by omega
  by_cases hkm : N < kmax
  · simp [StackOrHeapArray.resize, StackOrHeapArray.mkEmpty,
      StackOrHeapArray.allocate, hN', hkm]
  · simp [StackOrHeapArray.resize, StackOrHeapArray.mkEmpty,
      StackOrHeapArray.allocate, hN', hkm]

lemma range_map_getD {β : Type} (n : Nat) (f : Nat → β) (i : Nat) (d : β) (hi : i < n) :
    ((List.range n).map f).getD i d = f i := by
  rw [List.getD_eq_getElem?_getD, List.getElem?_map, List.getElem?_range hi]
  rfl

lemma convert_dataView (patch_coords : List OpenSubdiv_PatchCoord)
    (pm : Nat → ℚ → ℚ → PatchHandle) (i : Nat) (hi : i < patch_coords.length) :
    (convertPatchCoordsToArray patch_coords pm
        (StackOrHeapArray.mkEmpty (32 * 32))).dataView i
      = resolveCoord pm (patch_coords.getD i default) := by
  unfold convertPatchCoordsToArray
  have h0 : ((StackOrHeapArray.mkEmpty (α := PatchCoord) (32 * 32)).resize
      patch_coords.length).effective ≠ .null :=
    mkEmpty_resize_effective _ _ (by omega)
  have h := convertLoop_dataView pm patch_coords 0 _ h0 i hi
  rw [Nat.zero_add] at h
  exact h

/-! Claim theorems. -/

/-- Claim C7: `openSubdiv_createEvaluatorInternal` returns null exactly when
the requested evaluator type is neither CPU nor GLSL-compute, or when the
topology refiner is null (topology failed upstream refinement); for every
supported evaluator type with a valid topology it returns a non-null
evaluator handle. -/
theorem C7_create_evaluator_null_iff (cpu_backend gl_backend : Evaluator)
    (topology_refiner : OpenSubdiv_TopologyRefiner)
    (evaluator_type : eOpenSubdivEvaluator)
    (cache : Option OpenSubdiv_EvaluatorCacheImpl) :
    openSubdiv_createEvaluatorInternal cpu_backend gl_backend topology_refiner
        evaluator_type cache = none
      ↔ ((evaluator_type ≠ .OPENSUBDIV_EVALUATOR_CPU ∧
            evaluator_type ≠ .OPENSUBDIV_EVALUATOR_GLSL_COMPUTE) ∨
          topology_refiner.topology_refiner = none) := by
  obtain ⟨tr⟩ := topology_refiner
  cases evaluator_type <;> cases tr <;>
    simp [openSubdiv_createEvaluatorInternal]

/-- Claim C8: `openSubdiv_createEvaluatorCacheInternal` returns null for every
evaluator type except GLSL-compute, and for GLSL-compute it returns a
non-null cache handle holding a freshly created (empty) evaluator cache. -/
theorem C8_create_cache (evaluator_type : eOpenSubdivEvaluator) :
    (openSubdiv_createEvaluatorCacheInternal evaluator_type = none
        ↔ evaluator_type ≠ .OPENSUBDIV_EVALUATOR_GLSL_COMPUTE)
    ∧ openSubdiv_createEvaluatorCacheInternal .OPENSUBDIV_EVALUATOR_GLSL_COMPUTE
        = some { eval_cache := some { cached_layout_keys := [] } } := by
  constructor
  · cases evaluator_type <;> simp [openSubdiv_createEvaluatorCacheInternal]
  · rfl

/-- Claim C10: in `evaluateLimit` and `evaluatePatchesLimit`, if at least one
derivative output pointer is non-null the derivative path is taken, and that
path asserts that both are non-null: passing exactly one non-null derivative
pointer hits the assertion (modelled as result `none`) instead of computing
only the requested derivative; with both non-null all three outputs are
produced; derivatives are skipped only when both pointers are null, in which
case the derivative output arrays are left untouched. -/
theorem C10_derivative_pointer_asserts (api : EvalOutputAPI) (f : Nat) (u v : ℚ)
    (P0 : Nat → ℚ) (du0 dv0 : Nat → ℚ) (coords : List OpenSubdiv_PatchCoord) :
    api.evaluateLimit f u v P0 (some du0) none = none
    ∧ api.evaluateLimit f u v P0 none (some dv0) = none
    ∧ (∃ r, api.evaluateLimit f u v P0 (some du0) (some dv0) = some r
        ∧ r.dPdu.isSome ∧ r.dPdv.isSome)
    ∧ (∃ r, api.evaluateLimit f u v P0 none none = some r
        ∧ r.dPdu = none ∧ r.dPdv = none)
    ∧ api.evaluatePatchesLimit coords P0 (some du0) none = none
    ∧ api.evaluatePatchesLimit coords P0 none (some dv0) = none
    ∧ (∃ r, api.evaluatePatchesLimit coords P0 (some du0) (some dv0) = some r
        ∧ r.dPdu.isSome ∧ r.dPdv.isSome)
    ∧ (∃ r, api.evaluatePatchesLimit coords P0 none none = some r
        ∧ r.dPdu = none ∧ r.dPdv = none) := by
  refine ⟨rfl, rfl, ⟨_, rfl, rfl, rfl⟩, ⟨_, rfl, rfl, rfl⟩,
    rfl, rfl, ⟨_, rfl, rfl, rfl⟩, ⟨_, rfl, rfl, rfl⟩⟩

/-- Concrete staging-array states for the claims about
`StackOrHeapArray::resize`: inline capacity 2, then resize to 3 (heap), to 1
(logical shrink only), and to 2 (reallocation). -/
def C9array1 : StackOrHeapArray ℚ 2 :=
  (StackOrHeapArray.mkEmpty 2).resize 3

def C9array2 : StackOrHeapArray ℚ 2 :=
  C9array1.resize 1

def C9array3 : StackOrHeapArray ℚ 2 :=
  C9array2.resize 2

/-- Claim C9 counterexample: the growth test of `resize` compares against the
previous logical size, not the historical peak.  After `resize(3)` (heap
capacity 3) and `resize(1)` (no reallocation), `resize(2)` performs a fresh
heap allocation and moves the data pointer even though 2 is not larger than
the previous size 3, and the backing capacity drops from 3 to 2 — the
capacity is not monotone over the whole call sequence. -/
theorem C9_counterexample :
    C9array1.capacity = 3 ∧ C9array2.capacity = 3 ∧ C9array3.capacity = 2
    ∧ C9array2.allocs = 1 ∧ C9array3.allocs = 2
    ∧ C9array2.effective ≠ C9array3.effective
    ∧ ¬(C9array2.capacity ≤ C9array3.capacity) ∧ (2 : Nat) ≤ 3 := by
  refine ⟨rfl, rfl, rfl, rfl, rfl, by decide, by decide, by decide⟩

/-- Claim C9 (amended): a resize to a size not larger than the current
(immediately previous) size performs no allocation and keeps the same data
pointer and contents, and a growing resize preserves the first
`min(old_size, new_size)` elements of the array's contents after
reallocation. -/
theorem C9_resize_policy {α : Type} [Inhabited α] {kmax : Nat}
    (a : StackOrHeapArray α kmax) (n k : Nat) (hwf : a.WF = true) :
    (n ≤ a.num_elements → a.resize n = { a with num_elements := n })
    ∧ (k < min a.num_elements n → (a.resize n).dataView k = a.dataView k) :=
  ⟨fun hle => StackOrHeapArray.resize_noalloc a n hle,
   fun hk => StackOrHeapArray.resize_preserves a n k hwf hk⟩

/-- Witness for C9: the amended policy evaluated on the concrete state with
heap capacity 3 and size 3, resized to 1. -/
theorem C9_resize_policy_witness :
    C9array1.WF = true ∧ 1 ≤ C9array1.num_elements ∧ 0 < min C9array1.num_elements 1
    ∧ C9array1.resize 1 = { C9array1 with num_elements := 1 }
    ∧ (C9array1.resize 1).dataView 0 = C9array1.dataView 0 :=
  ⟨by decide, by decide, by decide,
   (C9_resize_policy C9array1 1 0 (by decide)).1 (by decide),
   (C9_resize_policy C9array1 1 0 (by decide)).2 (by decide)⟩

lemma mkFaceVaryingEvaluators_mem (w : Nat) (pt : PatchTable) (tables : List StencilTable) :
    ∀ (ch : Nat) (fv : FaceVaryingVolatileEval),
      fv ∈ mkFaceVaryingEvaluators ch tables w pt →
      ∃ ch2 st, fv = FaceVaryingVolatileEval.create ch2 st w pt := by
  induction tables with
  | nil =>
    intro ch fv h
    exact absurd h (by simp [mkFaceVaryingEvaluators])
  | cons st rest ih =>
    intro ch fv h
    rw [mkFaceVaryingEvaluators] at h
    rcases List.mem_cons.mp h with h1 | h2
    · exact ⟨ch, st, h1⟩
    · exact ih (ch + 1) fv h2

/-- A backend whose kernels report the source-descriptor offset they are
handed; used to exhibit which buffer offset each evaluation path reads
from. -/
def C1backend : Evaluator :=
  { evalPoint := fun _ srcD _ _ _ => (srcD.offset : ℚ)
    evalPointDu := fun _ srcD _ _ _ => (srcD.offset : ℚ)
    evalPointDv := fun _ srcD _ _ _ => (srcD.offset : ℚ)
    evalVaryingPoint := fun _ srcD _ _ _ => (srcD.offset : ℚ)
    evalFaceVaryingPoint := fun _ srcD _ _ _ _ => (srcD.offset : ℚ) }

/-- A non-adaptive (uniform-mode) patch table. -/
def C1patch_table : PatchTable :=
  ⟨false⟩

/-- An evaluator over the uniform patch table with 4 coarse position vertices
and one face-varying channel with 5 coarse vertices. -/
def C1eval : VolatileEvalOutput :=
  VolatileEvalOutput.create ⟨4, []⟩ ⟨0, []⟩ [⟨5, []⟩] 2 C1patch_table C1backend

/-- Claim C1 counterexample: with a non-adaptive (uniform) patch table the
position evaluation path does not skip the coarse prefix: `evalPatches`
passes `src_desc_` unchanged, whose offset is 0 and not
`num_coarse_points * stride = 12` — the offset-reporting backend kernel
receives offset 0.  The face-varying channel of the very same evaluator does
skip its coarse prefix (offset 10 = 5 * 2), so the claim that the uniform-mode
offset is applied to every channel alike is false on the code. -/
theorem C1_counterexample :
    is_adaptive C1eval.patch_table = false
    ∧ C1eval.num_coarse_vertices * C1eval.src_desc.stride = 12
    ∧ C1eval.src_desc.offset = 0
    ∧ C1eval.evalPatches [default] (fun _ => 0) 0 = 0
    ∧ ((C1eval.face_varying_evaluators.getD 0 default).get_src_varying_desc).offset = 10
    ∧ C1eval.src_desc.offset ≠ C1eval.num_coarse_vertices * C1eval.src_desc.stride := by
  refine ⟨rfl, rfl, rfl, by decide, by decide, by decide⟩

/-- Claim C1 (amended): the offset choice is derived structurally from the
shared patch table's adaptivity flag, but only the face-varying channels skip
the coarse prefix: for every evaluator built by the constructor, each
face-varying channel's patch-evaluation source descriptor has offset
`num_coarse_face_varying_points * stride` in uniform mode and offset 0 in
adaptive mode, while the position and varying paths pass source descriptors
with offset 0 in both modes. -/
theorem C1_offset_policy (vertex_stencils varying_stencils : StencilTable)
    (all_fvar : List StencilTable) (w : Nat) (pt : PatchTable) (backend : Evaluator)
    (fv : FaceVaryingVolatileEval)
    (hmem : fv ∈ (VolatileEvalOutput.create vertex_stencils varying_stencils all_fvar
      w pt backend).face_varying_evaluators) :
    (fv.get_src_varying_desc.offset =
        if is_adaptive pt then 0 else fv.num_coarse_face_varying_vertices * w)
    ∧ fv.src_face_varying_desc = ⟨0, w, w⟩
    ∧ fv.patch_table = pt
    ∧ (VolatileEvalOutput.create vertex_stencils varying_stencils all_fvar
        w pt backend).src_desc.offset = 0
    ∧ (VolatileEvalOutput.create vertex_stencils varying_stencils all_fvar
        w pt backend).src_varying_desc.offset = 0 := by
  obtain ⟨ch2, st, rfl⟩ := mkFaceVaryingEvaluators_mem w pt all_fvar 0 fv hmem
  refine ⟨?_, rfl, rfl, rfl, rfl⟩
  by_cases had : is_adaptive pt = true
  · simp [FaceVaryingVolatileEval.get_src_varying_desc,
      FaceVaryingVolatileEval.create, had]
  · simp [FaceVaryingVolatileEval.get_src_varying_desc,
      FaceVaryingVolatileEval.create, had]

/-- The face-varying evaluator constructed for the single channel of
`C1eval`. -/
def C1fv0 : FaceVaryingVolatileEval :=
  FaceVaryingVolatileEval.create 0 ⟨5, []⟩ 2 C1patch_table

/-- Witness for the amended C1: the offset policy evaluated on the concrete
uniform-mode evaluator with one face-varying channel. -/
theorem C1_offset_policy_witness :
    C1fv0 ∈ C1eval.face_varying_evaluators
    ∧ (C1fv0.get_src_varying_desc.offset =
        if is_adaptive C1patch_table then 0
        else C1fv0.num_coarse_face_varying_vertices * 2)
    ∧ C1fv0.src_face_varying_desc = ⟨0, 2, 2⟩
    ∧ C1fv0.patch_table = C1patch_table
    ∧ C1eval.src_desc.offset = 0
    ∧ C1eval.src_varying_desc.offset = 0 := by
  have hmem : C1fv0 ∈ C1eval.face_varying_evaluators := by
    show C1fv0 ∈ [C1fv0]
    exact List.mem_singleton_self _
  exact ⟨hmem, C1_offset_policy ⟨4, []⟩ ⟨0, []⟩ [⟨5, []⟩] 2 C1patch_table C1backend
    C1fv0 hmem⟩

/-- Claim C2: `refine()` reads from and writes to the same buffer, the
destination region beginning exactly `num_coarse_points * stride` floats past
the source region's start; no write overwrites a coarse element, and under
the stencil-table invariant (every stencil references only element indices
strictly below its own) every refined element ends up equal to its stencil's
combination of the final buffer contents — no write clobbers a
not-yet-consumed element.  The same holds for every face-varying channel's
`refine()`. -/
theorem C2_refine_in_place (e : VolatileEvalOutput)
    (hdesc : e.src_desc = ⟨0, 3, 3⟩)
    (hb : belowOwnB e.num_coarse_vertices e.vertex_stencils.stencils = true) :
    e.refine_dst_desc.offset
        = e.src_desc.offset + e.num_coarse_vertices * e.src_desc.stride
    ∧ (∀ k, k < e.num_coarse_vertices * 3 →
        e.refine.src_data.data k = e.src_data.data k)
    ∧ (∀ t, ∀ ht : t < e.vertex_stencils.stencils.length, ∀ c, c < 3 →
        e.refine.src_data.data (e.num_coarse_vertices * 3 + t * 3 + c)
          = stencilValue ⟨0, 3, 3⟩ e.refine.src_data.data
              (e.vertex_stencils.stencils.get ⟨t, ht⟩) c)
    ∧ (∀ fv : FaceVaryingVolatileEval, fv.src_face_varying_desc = ⟨0, 2, 2⟩ →
        belowOwnB fv.num_coarse_face_varying_vertices
          fv.face_varying_stencils.stencils = true →
        fv.refine_dst_desc.offset
            = fv.src_face_varying_desc.offset +
              fv.num_coarse_face_varying_vertices * fv.src_face_varying_desc.stride
        ∧ (∀ k, k < fv.num_coarse_face_varying_vertices * 2 →
            fv.refine.src_face_varying_data.data k = fv.src_face_varying_data.data k)
        ∧ (∀ t, ∀ ht : t < fv.face_varying_stencils.stencils.length, ∀ c, c < 2 →
            fv.refine.src_face_varying_data.data
                (fv.num_coarse_face_varying_vertices * 2 + t * 2 + c)
              = stencilValue ⟨0, 2, 2⟩ fv.refine.src_face_varying_data.data
                  (fv.face_varying_stencils.stencils.get ⟨t, ht⟩) c)) := by
  have hdst : e.refine_dst_desc = ⟨e.num_coarse_vertices * 3, 3, 3⟩ := by
    simp [VolatileEvalOutput.refine_dst_desc, hdesc]
  have hdata : e.refine.src_data.data
      = runStencils ⟨0, 3, 3⟩ ⟨e.num_coarse_vertices * 3, 3, 3⟩ 0
          e.vertex_stencils.stencils e.src_data.data := by
    rw [VolatileEvalOutput.refine_eq]
    show EvalStencils e.src_data.data e.src_desc e.refine_dst_desc e.vertex_stencils = _
    rw [EvalStencils, hdesc, hdst]
  obtain ⟨hcoarse, hrec⟩ :=
    EvalStencils_spec 3 e.num_coarse_vertices e.vertex_stencils.stencils
      e.src_data.data hb
  refine ⟨rfl, ?_, ?_, ?_⟩
  · intro k hk
    rw [hdata]
    exact hcoarse k hk
  · intro t ht c hc
    rw [hdata]
    exact hrec t ht c hc
  · intro fv hfdesc hfb
    have hfdst : fv.refine_dst_desc
        = ⟨fv.num_coarse_face_varying_vertices * 2, 2, 2⟩ := by
      simp [FaceVaryingVolatileEval.refine_dst_desc, hfdesc]
    have hfdata : fv.refine.src_face_varying_data.data
        = runStencils ⟨0, 2, 2⟩ ⟨fv.num_coarse_face_varying_vertices * 2, 2, 2⟩ 0
            fv.face_varying_stencils.stencils fv.src_face_varying_data.data := by
      show EvalStencils fv.src_face_varying_data.data fv.src_face_varying_desc
        fv.refine_dst_desc fv.face_varying_stencils = _
      rw [EvalStencils, hfdesc, hfdst]
    obtain ⟨hfc, hfr⟩ :=
      EvalStencils_spec 2 fv.num_coarse_face_varying_vertices
        fv.face_varying_stencils.stencils fv.src_face_varying_data.data hfb
    refine ⟨rfl, ?_, ?_⟩
    · intro k hk
      rw [hfdata]
      exact hfc k hk
    · intro t ht c hc
      rw [hfdata]
      exact hfr t ht c hc

/-- Evaluator state used as concrete input for the refinement claims: one
coarse position vertex, one position stencil with weight 1/2. -/
def C2eval : VolatileEvalOutput :=
  VolatileEvalOutput.create ⟨1, [⟨[(0, 1/2)]⟩]⟩ ⟨0, []⟩ [] 2 ⟨true⟩ C1backend

/-- Witness for C2: the in-place refinement layout evaluated on the concrete
one-stencil evaluator. -/
theorem C2_refine_in_place_witness :
    C2eval.src_desc = ⟨0, 3, 3⟩
    ∧ belowOwnB C2eval.num_coarse_vertices C2eval.vertex_stencils.stencils = true
    ∧ C2eval.refine_dst_desc.offset
        = C2eval.src_desc.offset + C2eval.num_coarse_vertices * C2eval.src_desc.stride
    ∧ C2eval.refine.src_data.data 0 = C2eval.src_data.data 0
    ∧ C2eval.refine.src_data.data (C2eval.num_coarse_vertices * 3 + 0 * 3 + 0)
        = stencilValue ⟨0, 3, 3⟩ C2eval.refine.src_data.data
            (C2eval.vertex_stencils.stencils.get ⟨0, by decide⟩) 0 :=
  ⟨rfl, by decide, (C2_refine_in_place C2eval rfl (by decide)).1,
   (C2_refine_in_place C2eval rfl (by decide)).2.1 0 (by decide),
   (C2_refine_in_place C2eval rfl (by decide)).2.2.1 0 (by decide) 0 (by decide)⟩

/-- Claim C3: stencil refinement is a linear map of the buffer data: for any
evaluator, refining the data `a*A + b*B` produces, elementwise, exactly
`a` times the refined output of `A` plus `b` times the refined output of
`B`. -/
theorem C3_refine_linear (e : VolatileEvalOutput) (A B : Nat → ℚ) (a b : ℚ)
    (k : Nat) :
    ({ e with src_data := { e.src_data with
        data := fun j => a * A j + b * B j } }).refine.src_data.data k
      = a * ({ e with src_data :=
            { e.src_data with data := A } }).refine.src_data.data k
        + b * ({ e with src_data :=
            { e.src_data with data := B } }).refine.src_data.data k := by
  have h1 : ∀ (f : Nat → ℚ),
      ({ e with src_data := { e.src_data with data := f } } :
          VolatileEvalOutput).refine.src_data.data
        = runStencils e.src_desc e.refine_dst_desc 0 e.vertex_stencils.stencils f := by
    intro f
    rw [VolatileEvalOutput.refine_eq]
    rfl
  rw [h1, h1, h1]
  exact runStencils_linear e.src_desc e.refine_dst_desc e.vertex_stencils.stencils
    0 A B a b k

/-- Claim C4: with the stencil-table invariant (indices strictly below the
stencil's own element, guaranteed for the tables produced by OpenSubdiv) and
the constructor's buffer descriptors, calling `refine()` twice with no
intervening coarse update leaves the whole evaluator state — the position
buffer and every face-varying channel's buffer — identical to a single
`refine()`. -/
theorem C4_refine_idempotent (e : VolatileEvalOutput)
    (hdesc : e.src_desc = ⟨0, 3, 3⟩)
    (hb : belowOwnB e.num_coarse_vertices e.vertex_stencils.stencils = true)
    (hfv : ∀ fv ∈ e.face_varying_evaluators,
        fv.src_face_varying_desc.offset = 0
        ∧ fv.src_face_varying_desc.width = fv.src_face_varying_desc.stride
        ∧ belowOwnB fv.num_coarse_face_varying_vertices
            fv.face_varying_stencils.stencils = true) :
    e.refine.refine = e.refine := by
  have hdst : e.refine_dst_desc = ⟨e.num_coarse_vertices * 3, 3, 3⟩ := by
    simp [VolatileEvalOutput.refine_dst_desc, hdesc]
  have hEdata : EvalStencils
      (EvalStencils e.src_data.data e.src_desc e.refine_dst_desc e.vertex_stencils)
      e.src_desc e.refine_dst_desc e.vertex_stencils
      = EvalStencils e.src_data.data e.src_desc e.refine_dst_desc e.vertex_stencils := by
    rw [hdesc, hdst]
    exact EvalStencils_idem' 3 e.num_coarse_vertices e.vertex_stencils
      e.src_data.data hb
  have hfvmap : (e.face_varying_evaluators.map FaceVaryingVolatileEval.refine).map
        FaceVaryingVolatileEval.refine
      = e.face_varying_evaluators.map FaceVaryingVolatileEval.refine := by
    rw [List.map_map]
    apply List.map_congr_left
    intro fv hmem
    show fv.refine.refine = fv.refine
    obtain ⟨h1, h2, h3⟩ := hfv fv hmem
    exact FaceVaryingVolatileEval.refine_idem fv h1 h2 h3
  rw [VolatileEvalOutput.refine_eq e, VolatileEvalOutput.refine_eq]
  show ({ e with
      src_data := { e.src_data with
        data := EvalStencils
          (EvalStencils e.src_data.data e.src_desc e.refine_dst_desc e.vertex_stencils)
          e.src_desc e.refine_dst_desc e.vertex_stencils }
      face_varying_evaluators :=
        (e.face_varying_evaluators.map FaceVaryingVolatileEval.refine).map
          FaceVaryingVolatileEval.refine } : VolatileEvalOutput)
    = { e with
        src_data := { e.src_data with
          data := EvalStencils e.src_data.data e.src_desc e.refine_dst_desc
            e.vertex_stencils }
        face_varying_evaluators :=
          e.face_varying_evaluators.map FaceVaryingVolatileEval.refine }
  rw [hEdata, hfvmap]

/-- Evaluator state used as concrete input for the idempotence claim: one
coarse position vertex with one stencil, and one face-varying channel with
one coarse vertex and one stencil. -/
def C4eval : VolatileEvalOutput :=
  VolatileEvalOutput.create ⟨1, [⟨[(0, 1/2)]⟩]⟩ ⟨0, []⟩ [⟨1, [⟨[(0, 2)]⟩]⟩] 2
    ⟨true⟩ C1backend

/-- Witness for C4: idempotence of `refine()` on the concrete evaluator with
one face-varying channel. -/
theorem C4_refine_idempotent_witness :
    C4eval.src_desc = ⟨0, 3, 3⟩
    ∧ belowOwnB C4eval.num_coarse_vertices C4eval.vertex_stencils.stencils = true
    ∧ C4eval.refine.refine = C4eval.refine :=
  ⟨rfl, by decide,
   C4_refine_idempotent C4eval rfl (by decide) (by
    intro fv hmem
    have hfveq : fv = FaceVaryingVolatileEval.create 0 ⟨1, [⟨[(0, 2)]⟩]⟩ 2 ⟨true⟩ := by
      simpa [C4eval, VolatileEvalOutput.create, mkFaceVaryingEvaluators] using hmem
    subst hfveq
    exact ⟨rfl, rfl, by decide⟩)⟩

/-- Claim C5: updating face-varying channel `ch`'s coarse data and calling
`refine()` leaves every other channel `j`'s evaluator state (its buffer
contents, descriptors and stencils), and hence channel `j`'s evaluation
output, unchanged; the update alone also never touches another channel's
state. -/
theorem C5_channel_isolation (e : VolatileEvalOutput) (ch j : Nat) (src : List ℚ)
    (start_vertex num_vertices : Nat) (hne : j ≠ ch) :
    (e.updateFaceVaryingData ch src start_vertex
          num_vertices).face_varying_evaluators.getD j default
        = e.face_varying_evaluators.getD j default
    ∧ (e.updateFaceVaryingData ch src start_vertex
          num_vertices).refine.face_varying_evaluators.getD j default
        = e.refine.face_varying_evaluators.getD j default
    ∧ (∀ patch_coord out0,
        (e.updateFaceVaryingData ch src start_vertex
            num_vertices).refine.evalPatchesFaceVarying j patch_coord out0
          = e.refine.evalPatchesFaceVarying j patch_coord out0) := by
  have h2 : (e.updateFaceVaryingData ch src start_vertex
        num_vertices).refine.face_varying_evaluators.getD j default
      = e.refine.face_varying_evaluators.getD j default := by
    rw [VolatileEvalOutput.refine_eq, VolatileEvalOutput.refine_eq]
    show ((modifyChannel e.face_varying_evaluators ch
          (fun fv => fv.updateData src start_vertex num_vertices)).map
            FaceVaryingVolatileEval.refine).getD j default
      = (e.face_varying_evaluators.map FaceVaryingVolatileEval.refine).getD j default
    exact modifyChannel_map_getD _ _ ch j _ default hne
  have hb1 : (e.updateFaceVaryingData ch src start_vertex
      num_vertices).refine.backend = e.backend := by
    rw [VolatileEvalOutput.refine_eq]
    rfl
  have hb2 : e.refine.backend = e.backend := by
    rw [VolatileEvalOutput.refine_eq]
  refine ⟨modifyChannel_getD _ ch j _ default hne, h2, ?_⟩
  intro patch_coord out0
  rw [VolatileEvalOutput.evalPatchesFaceVarying,
    VolatileEvalOutput.evalPatchesFaceVarying, hb1, hb2, h2]

/-- Evaluator state used as concrete input for the channel-isolation claim:
two face-varying channels. -/
def C5eval : VolatileEvalOutput :=
  VolatileEvalOutput.create ⟨1, [⟨[(0, 1)]⟩]⟩ ⟨0, []⟩ [⟨1, []⟩, ⟨2, []⟩] 2
    ⟨true⟩ C1backend

/-- Witness for C5: updating channel 0 leaves channel 1's state and
evaluation output unchanged on the concrete two-channel evaluator. -/
theorem C5_channel_isolation_witness :
    (1 : Nat) ≠ 0
    ∧ (C5eval.updateFaceVaryingData 0 [3, 4] 0 1).face_varying_evaluators.getD 1 default
        = C5eval.face_varying_evaluators.getD 1 default
    ∧ (C5eval.updateFaceVaryingData 0 [3, 4] 0
          1).refine.face_varying_evaluators.getD 1 default
        = C5eval.refine.face_varying_evaluators.getD 1 default
    ∧ (C5eval.updateFaceVaryingData 0 [3, 4] 0 1).refine.evalPatchesFaceVarying 1
          [default] (fun _ => 0)
        = C5eval.refine.evalPatchesFaceVarying 1 [default] (fun _ => 0) :=
  ⟨by decide, (C5_channel_isolation C5eval 0 1 [3, 4] 0 1 (by decide)).1,
   (C5_channel_isolation C5eval 0 1 [3, 4] 0 1 (by decide)).2.1,
   (C5_channel_isolation C5eval 0 1 [3, 4] 0 1 (by decide)).2.2
     [default] (fun _ => 0)⟩

lemma EvalPatchesKernel_value (g : PatchCoord → Nat → ℚ) (w : Nat)
    (patch_coords : List PatchCoord) (out : Nat → ℚ) (i c : Nat)
    (hi : i < patch_coords.length) (hc : c < w) (hw : 0 < w) :
    EvalPatchesKernel g w patch_coords out (w * i + c)
      = g (patch_coords.getD i default) c := by
  have hlt : w * i + c < w * patch_coords.length := by
    have h1 : w * (i + 1) ≤ w * patch_coords.length :=
      Nat.mul_le_mul_left w (by omega)
    rw [Nat.mul_succ] at h1
    omega
  have hdiv : (w * i + c) / w = i := by
    rw [Nat.mul_add_div hw, Nat.div_eq_of_lt hc, Nat.add_zero]
  have hmod : (w * i + c) % w = c := by
    rw [Nat.mul_add_mod, Nat.mod_eq_of_lt hc]
  unfold EvalPatchesKernel
  rw [if_pos hlt, hdiv, hmod]

lemma EvalPatchesKernel_single (g : PatchCoord → Nat → ℚ) (x : PatchCoord)
    (out : Nat → ℚ) (c : Nat) (hc : c < 3) :
    EvalPatchesKernel g 3 [x] out c = g x c := by
  unfold EvalPatchesKernel
  rw [if_pos (by simp only [List.length_cons, List.length_nil]; omega),
    Nat.div_eq_of_lt hc, Nat.mod_eq_of_lt hc]
  rfl

lemma kernel_map_value (g : PatchCoord → Nat → ℚ) (st : List PatchCoord)
    (x : PatchCoord) (out1 out2 : Nat → ℚ) (i c : Nat) (hi : i < st.length)
    (hc : c < 3) (hx : st.getD i default = x) :
    EvalPatchesKernel g 3 st out1 (3 * i + c) = EvalPatchesKernel g 3 [x] out2 c := by
  rw [EvalPatchesKernel_value g 3 st out1 i c hi hc (by omega), hx,
    EvalPatchesKernel_single g x out2 c hc]

/-- Claim C6: for every refined evaluator state and every batch of
coordinates, the batched `evaluatePatchesLimit` produces, for each index `i`,
position and derivative values identical to the ones the single-point
`evaluateLimit` produces for coordinate `i` alone (exactly, in this
real-arithmetic model); both paths resolve the coordinate through the same
patch map lookup. -/
theorem C6_batch_single_consistency (api : EvalOutputAPI)
    (patch_coords : List OpenSubdiv_PatchCoord) (P0 Q0 du0 dv0 du1 dv1 : Nat → ℚ)
    (i c : Nat) (hi : i < patch_coords.length) (hc : c < 3) :
    ((api.evaluatePatchesLimit patch_coords P0 none none).map
          (fun r => r.P (3 * i + c))
        = (api.evaluateLimit (patch_coords.getD i default).ptex_face
            (patch_coords.getD i default).u (patch_coords.getD i default).v Q0
            none none).map (fun r => r.P c))
    ∧ ((api.evaluatePatchesLimit patch_coords P0 (some du0) (some dv0)).map
          (fun r => r.P (3 * i + c))
        = (api.evaluateLimit (patch_coords.getD i default).ptex_face
            (patch_coords.getD i default).u (patch_coords.getD i default).v Q0
            (some du1) (some dv1)).map (fun r => r.P c))
    ∧ ((api.evaluatePatchesLimit patch_coords P0 (some du0) (some dv0)).map
          (fun r => r.dPdu.map (fun g => g (3 * i + c)))
        = (api.evaluateLimit (patch_coords.getD i default).ptex_face
            (patch_coords.getD i default).u (patch_coords.getD i default).v Q0
            (some du1) (some dv1)).map (fun r => r.dPdu.map (fun g => g c)))
    ∧ ((api.evaluatePatchesLimit patch_coords P0 (some du0) (some dv0)).map
          (fun r => r.dPdv.map (fun g => g (3 * i + c)))
        = (api.evaluateLimit (patch_coords.getD i default).ptex_face
            (patch_coords.getD i default).u (patch_coords.getD i default).v Q0
            (some du1) (some dv1)).map (fun r => r.dPdv.map (fun g => g c))) := by
  have hstaged : ((List.range patch_coords.length).map
        (fun k => (convertPatchCoordsToArray patch_coords api.patch_map
          (StackOrHeapArray.mkEmpty (32 * 32))).dataView k)).getD i default
      = resolveCoord api.patch_map (patch_coords.getD i default) := by
    rw [range_map_getD _ _ i _ hi]
    exact convert_dataView patch_coords api.patch_map i hi
  have hilen : i < ((List.range patch_coords.length).map
      (fun k => (convertPatchCoordsToArray patch_coords api.patch_map
        (StackOrHeapArray.mkEmpty (32 * 32))).dataView k)).length := by
    simpa using hi
  exact ⟨congrArg some (kernel_map_value _ _ _ P0 Q0 i c hilen hc hstaged),
    congrArg some (kernel_map_value _ _ _ P0 Q0 i c hilen hc hstaged),
    congrArg (fun x => some (some x))
      (kernel_map_value _ _ _ du0 du1 i c hilen hc hstaged),
    congrArg (fun x => some (some x))
      (kernel_map_value _ _ _ dv0 dv1 i c hilen hc hstaged)⟩

/-- Concrete API object for the batch/single consistency claim: the
one-stencil evaluator with a simple deterministic patch-map function. -/
def C6api : EvalOutputAPI :=
  { implementation := C2eval
    patch_map := fun f _ _ => ⟨f, 0, 0⟩ }

/-- Concrete one-coordinate batch. -/
def C6coords : List OpenSubdiv_PatchCoord :=
  [⟨2, 1/3, 1/4⟩]

/-- Witness for C6: batch/single agreement evaluated on the concrete API for
batch index 0, component 1. -/
theorem C6_batch_single_consistency_witness :
    0 < C6coords.length ∧ (1 : Nat) < 3
    ∧ ((C6api.evaluatePatchesLimit C6coords (fun _ => 0) none none).map
          (fun r => r.P (3 * 0 + 1))
        = (C6api.evaluateLimit (C6coords.getD 0 default).ptex_face
            (C6coords.getD 0 default).u (C6coords.getD 0 default).v (fun _ => 0)
            none none).map (fun r => r.P 1)) :=
  ⟨by decide, by decide,
   (C6_batch_single_consistency C6api C6coords (fun _ => 0) (fun _ => 0) (fun _ => 0)
     (fun _ => 0) (fun _ => 0) (fun _ => 0) 0 1 (by decide) (by decide)).1⟩

end Subdiv
